import Mathlib

/-!
Shallow embedding of the webrtc-flask-demo signaling server
(`server.py`, `transcription.py`, `network_adaptation.py`).

Conventions of the embedding:
* Python numbers (ints and floats as used here) are modelled as `ℚ`.
* Python `None` / an absent dict field is modelled as `Option.none`.
* Python truthiness of a value `v or d` (where `None`, `0`, `""` are falsy)
  is modelled explicitly at each site.
* Python `dict` is an association list with unique keys, `set` a duplicate-free
  list; `defaultdict.__getitem__` inserts the default on a missing key, which
  the model reproduces (this side effect is observable in `handle_leave`).
* `str.strip()` is modelled by `pyStrip`, `int(x)` on a number by `pyInt`
  (truncation toward zero).
* The external Gemini call inside `transcribe_audio_data` is modelled by an
  oracle argument `resp : Except Unit String`: `.error` means the call raised,
  `.ok t` means it produced text `t` (with `t = ""` covering a falsy
  `response`/`response.text`).
-/

namespace WebRTCDemo

/-- Truncation toward zero, the behaviour of Python `int()` on a number. -/
def pyInt (q : ℚ) : ℤ :=
  if q < 0 then -(Rat.floor (-q)) else Rat.floor q

/-- Whitespace test used by `pyStrip` (ASCII whitespace as stripped by
Python `str.strip()`; the strings in this code base contain no exotic
whitespace). -/
def isPySpace (c : Char) : Bool :=
  c = ' ' || c = '\t' || c = '\n' || c = '\r'

/-- Model of Python `str.strip()`: drop leading and trailing whitespace. -/
def pyStrip (s : String) : String :=
  ⟨((s.data.dropWhile isPySpace).reverse.dropWhile isPySpace).reverse⟩

/-! ### network_adaptation.py -/

/-- Inbound stats payload for `evaluate_network`: each field either absent/null
(`none`) or a number. -/
structure NetStats where
  rtt : Option ℚ
  packetLoss : Option ℚ
  bandwidth : Option ℚ

/-- Python `stats.get(key, d) or d`: a missing field, a null field, or a falsy
(zero) value all fall back to the default `d`. -/
def getOrDefault (v : Option ℚ) (d : ℚ) : ℚ :=
  match v with
  | none => d
  | some x => if x = 0 then d else x

/-- Threshold row of the `THRESHOLDS` table in `network_adaptation.py`. -/
structure Thresholds where
  rtt : ℚ
  loss : ℚ
  bandwidth : ℚ

def criticalThresholds : Thresholds := ⟨500, 15/100, 100⟩
def poorThresholds : Thresholds := ⟨300, 8/100, 200⟩
def degradedThresholds : Thresholds := ⟨150, 3/100, 500⟩

/-- Embedding of `evaluate_network` (`network_adaptation.py` lines 6–66):
extract stats with `float(stats.get(k, d) or d)`, then pick the mode from the
worst matching threshold row, checking loss, then rtt, then bandwidth. -/
def evaluate_network (stats : NetStats) : String :=
  let rtt := getOrDefault stats.rtt 0
  let loss := getOrDefault stats.packetLoss 0
  let bandwidth := getOrDefault stats.bandwidth 1000
  if loss ≥ criticalThresholds.loss ∨ rtt ≥ criticalThresholds.rtt ∨
      bandwidth < criticalThresholds.bandwidth then "captions-only"
  else if loss ≥ poorThresholds.loss ∨ rtt ≥ poorThresholds.rtt ∨
      bandwidth < poorThresholds.bandwidth then "audio-only"
  else if loss ≥ degradedThresholds.loss ∨ rtt ≥ degradedThresholds.rtt ∨
      bandwidth < degradedThresholds.bandwidth then "degrade-video"
  else "normal"

/-- The Quality Policy exactly as the claim words it: missing or null fields
default to rtt=0, loss=0, bandwidth=1000 (a present numeric field is used
as-is), then worst-first tier selection. Stated for comparison with
`evaluate_network`. -/
def evaluateNetworkClaim (stats : NetStats) : String :=
  let rtt := stats.rtt.getD 0
  let loss := stats.packetLoss.getD 0
  let bandwidth := stats.bandwidth.getD 1000
  if loss ≥ 15/100 ∨ rtt ≥ 500 ∨ bandwidth < 100 then "captions-only"
  else if loss ≥ 8/100 ∨ rtt ≥ 300 ∨ bandwidth < 200 then "audio-only"
  else if loss ≥ 3/100 ∨ rtt ≥ 150 ∨ bandwidth < 500 then "degrade-video"
  else "normal"

/-- The claim as amended: like `evaluateNetworkClaim`, but a falsy (zero)
field also falls back to its default, as Python `stats.get(k, d) or d`
does — in particular an explicit `bandwidth = 0` is read as 1000. -/
def evaluateNetworkAmended (stats : NetStats) : String :=
  let rtt := getOrDefault stats.rtt 0
  let loss := getOrDefault stats.packetLoss 0
  let bandwidth := getOrDefault stats.bandwidth 1000
  if loss ≥ 15/100 ∨ rtt ≥ 500 ∨ bandwidth < 100 then "captions-only"
  else if loss ≥ 8/100 ∨ rtt ≥ 300 ∨ bandwidth < 200 then "audio-only"
  else if loss ≥ 3/100 ∨ rtt ≥ 150 ∨ bandwidth < 500 then "degrade-video"
  else "normal"

/-! ### server.py signaling state -/

abbrev Sid := String
abbrev RoomId := String

/-- The module-level `rooms = defaultdict(set)` of `server.py`: an association
list from room id to its participant set (a duplicate-free list). Key order is
dict insertion order. -/
abbrev Registry := List (RoomId × List Sid)

/-- Plain dict lookup (no default insertion); polymorphic so that both the
signaling registry and the transcription module state can use it. -/
def lookupRoom {α : Type} (m : List (RoomId × α)) (r : RoomId) : Option α :=
  match m with
  | [] => none
  | (r', s) :: rest => if r' = r then some s else lookupRoom rest r

/-- Dict assignment `m[r] = s`: overwrite in place if present, else append. -/
def setRoom {α : Type} (m : List (RoomId × α)) (r : RoomId) (s : α) :
    List (RoomId × α) :=
  match m with
  | [] => [(r, s)]
  | (r', s') :: rest =>
      if r' = r then (r, s) :: rest else (r', s') :: setRoom rest r s

/-- Dict deletion `del m[r]`. -/
def eraseRoom {α : Type} (m : List (RoomId × α)) (r : RoomId) :
    List (RoomId × α) :=
  match m with
  | [] => []
  | (r', s') :: rest =>
      if r' = r then rest else (r', s') :: eraseRoom rest r

/-- The `defaultdict(set).__getitem__`: return the room's set, INSERTING an
empty set under the key when the key is absent. Returns the (possibly grown)
dict together with the set read. -/
def ddGet (m : Registry) (r : RoomId) : Registry × List Sid :=
  match lookupRoom m r with
  | some s => (m, s)
  | none => (setRoom m r [], [])

/-- Python `set.add`: append if not already a member. -/
def pyAdd (s : List Sid) (x : Sid) : List Sid :=
  if x ∈ s then s else s ++ [x]

/-- Python `set.discard` / `set.remove` on a set: drop the element. -/
def pyDiscard (s : List Sid) (x : Sid) : List Sid :=
  s.filter (fun y => y ≠ x)

/-- The dict's key list, for stating which rooms exist in the registry. -/
def roomKeys {α : Type} (m : List (RoomId × α)) : List RoomId := m.map Prod.fst

/-- Embedding of `handle_join` (`server.py` lines 121–136), restricted to its
effect on `rooms` and the `existing-peers` reply: read
`existing = list(rooms[room])` (a defaultdict access), then `join_room` /
`rooms[room].add(sid)`, reply `existing` to the joiner, and notify each member
of `existing` of the new peer. Returns (new registry, existing-peers list). -/
def handle_join (m : Registry) (roomField : Option RoomId) (sid : Sid) :
    Registry × List Sid :=
  let room := roomField.getD "default"
  let (m1, s) := ddGet m room
  let existing := s
  (setRoom m1 room (pyAdd s sid), existing)

/-- Embedding of `handle_leave` (`server.py` lines 213–232), restricted to its
effect on `rooms` plus whether the emptied-room cleanup branch ran (the branch
that deletes the room key and drops the worker handle). `room = data.get('room')`
may be absent; `if room and sid in rooms[room]` short-circuits, so the
defaultdict access `rooms[room]` happens exactly when `room` is truthy. -/
def handle_leave (m : Registry) (roomField : Option RoomId) (sid : Sid) :
    Registry × Bool :=
  match roomField with
  | none => (m, false)
  | some room =>
      if room = "" then (m, false)
      else
        let (m1, s) := ddGet m room
        if sid ∈ s then
          let s' := pyDiscard s sid
          if s' = [] then (eraseRoom (setRoom m1 room s') room, true)
          else (setRoom m1 room s', false)
        else (m1, false)

/-- Embedding of `on_disconnect` (`server.py` lines 234–251), restricted to its
effect on `rooms`: for every room containing the sid, remove it; delete rooms
this empties. Rooms not containing the sid are untouched. -/
def on_disconnect (m : Registry) (sid : Sid) : Registry :=
  m.filterMap fun p =>
    if sid ∈ p.2 then
      let s' := pyDiscard p.2 sid
      if s' = [] then none else some (p.1, s')
    else some p

/-! ### server.py directed signaling relay -/

/-- Python truthiness of an optional string field (`None` and `""` are falsy). -/
def truthyStr (o : Option String) : Bool :=
  match o with
  | some s => s ≠ ""
  | none => false

/-- One `socketio.emit(event, {..., 'from': sender}, room=dest)` call. -/
structure SigEmit where
  event : String
  payload : Option String
  sender : Sid
  dest : String
deriving DecidableEq, Repr

/-- Embedding of `handle_offer` (`server.py` lines 186–193): read `to` and
`sdp` from the payload; if `to` is truthy, emit the sdp plus the sender id to
the room named by the target sid (each connection is subscribed to a room of
its own sid), else do nothing. -/
def handle_offer (target sdp : Option String) (sid : Sid) : List SigEmit :=
  if truthyStr target then [⟨"offer", sdp, sid, target.getD ""⟩] else []

/-- Embedding of `handle_answer` (`server.py` lines 195–202), same shape as
`handle_offer`. -/
def handle_answer (target sdp : Option String) (sid : Sid) : List SigEmit :=
  if truthyStr target then [⟨"answer", sdp, sid, target.getD ""⟩] else []

/-- Embedding of `handle_ice` (`server.py` lines 204–211): the emit happens
only when BOTH `to` and `candidate` are truthy (`if target and candidate`). -/
def handle_ice (target candidate : Option String) (sid : Sid) : List SigEmit :=
  if truthyStr target && truthyStr candidate then
    [⟨"ice-candidate", candidate, sid, target.getD ""⟩]
  else []

/-! ### transcription.py -/

/-- An audio fragment `(timestamp, sequence, raw)` as queued by
`handle_audio_chunk`. Raw bytes are a list of naturals. -/
structure Frag where
  ts : ℚ
  seq : ℚ
  data : List ℕ
deriving DecidableEq, Repr

/-- The sort key comparison of `buffer.sort(key=lambda x: (x[0], x[1]))`:
Python tuple order on (timestamp, sequence). -/
def keyLe (a b : Frag) : Prop :=
  a.ts < b.ts ∨ (a.ts = b.ts ∧ a.seq ≤ b.seq)

instance : DecidableRel keyLe := fun a b => by
  unfold keyLe; infer_instance

instance : IsTotal Frag keyLe where
  total a b := by
    unfold keyLe
    rcases lt_trichotomy a.ts b.ts with h | h | h
    · exact Or.inl (Or.inl h)
    · rcases le_total a.seq b.seq with h' | h'
      · exact Or.inl (Or.inr ⟨h, h'⟩)
      · exact Or.inr (Or.inr ⟨h.symm, h'⟩)
    · exact Or.inr (Or.inl h)

instance : IsTrans Frag keyLe where
  trans a b c hab hbc := by
    unfold keyLe at *
    rcases hab with h1 | ⟨h1, h1'⟩ <;> rcases hbc with h2 | ⟨h2, h2'⟩
    · exact Or.inl (h1.trans h2)
    · exact Or.inl (lt_of_lt_of_eq h1 h2)
    · exact Or.inl (lt_of_eq_of_lt h1 h2)
    · exact Or.inr ⟨h1.trans h2, h1'.trans h2'⟩

/-- Embedding of `buffer.sort(key=lambda x: (x[0], x[1]))`: a stable sort by
the (timestamp, sequence) key. Python's Timsort is stable; `insertionSort`
is stable, so it is an extensionally faithful model. -/
def sortBuffer (buf : List Frag) : List Frag :=
  buf.insertionSort keyLe

/-- Embedding of `combined = b''.join([audio_data for (_, _, audio_data) in
buffer])` after the in-place sort: the concatenated raw bytes of the sorted
buffer. -/
def flushBytes (buf : List Frag) : List ℕ :=
  (sortBuffer buf).flatMap Frag.data

/-- The `mock_phrases` list of `generate_mock_transcription`. -/
def mock_phrases : List String :=
  ["Hello everyone, how are you doing today?",
   "Let\x27s focus on the main objectives.",
   "That’s a great point, let’s discuss further.",
   "Can everyone hear me clearly?",
   "Moving on to the next agenda item."]

/-- Embedding of `generate_mock_transcription`: `random.choice(mock_phrases)`
over the five phrases, with the random draw modelled by an index oracle
reduced mod 5 (the `getD` default is unreachable since `i % 5 < 5`). -/
def generate_mock_transcription (i : ℕ) : String :=
  mock_phrases.getD (i % 5) ""

/-- Embedding of `transcribe_audio_data` (`transcription.py` lines 73–93).
The external Gemini call is an oracle `resp`: `.ok t` models a response whose
`.text` is `t` (with `t = ""` covering a falsy response or empty text, the
`return ""` path), `.error ()` models the call raising, in which case the
`except` branch returns `generate_mock_transcription()`. The function itself
never raises. -/
def transcribe_audio_data (resp : Except Unit String) (mockIdx : ℕ) : String :=
  match resp with
  | .ok t => t
  | .error _ => generate_mock_transcription mockIdx

/-- A transcript entry `{"ts": int(now), "text": text.strip()}`. -/
structure TranscriptEntry where
  ts : ℤ
  text : String
deriving DecidableEq, Repr

/-- The per-room mutable state of `audio_worker_for_room`: the local `buffer`
and `last_flush` together with the room's transcript log
(`rooms[room]["transcript"]`). -/
structure WorkerState where
  buffer : List Frag
  lastFlush : ℚ
  transcript : List TranscriptEntry

def FLUSH_SECONDS : ℚ := 5
def MIN_BUFFER_SIZE : ℕ := 2048

/-- The flush condition of line 53 of `transcription.py`:
`buffer and (now - last_flush >= FLUSH_SECONDS or len(buffer) >= 5)`,
evaluated on the buffer as it stands after a possible arrival. -/
def should_flush (buffer : List Frag) (lastFlush now : ℚ) : Prop :=
  buffer ≠ [] ∧ (now - lastFlush ≥ FLUSH_SECONDS ∨ buffer.length ≥ 5)

instance (buffer : List Frag) (lastFlush now : ℚ) :
    Decidable (should_flush buffer lastFlush now) := by
  unfold should_flush; infer_instance

/-- Result of one iteration of the worker loop: the new worker state, whether
the flush branch was entered, and the `transcript-update` emits sent. -/
structure IterResult where
  state : WorkerState
  didFlush : Bool
  emitted : List TranscriptEntry

/-- Embedding of one iteration of the `while True` loop of
`audio_worker_for_room` (`transcription.py` lines 44–71): `arrival` is the
result of `q.get(timeout=FLUSH_SECONDS)` (`none` on `queue.Empty`), `now` the
wall clock at line 52, `resp`/`mockIdx` the transcription oracle. On flush the
buffer is sorted in place, concatenated, and only if the combined length
reaches `MIN_BUFFER_SIZE` is the buffer cleared, `last_flush` advanced and the
transcription invoked; a non-blank result is appended to the transcript and
emitted. -/
def workerIteration (st : WorkerState) (arrival : Option Frag) (now : ℚ)
    (resp : Except Unit String) (mockIdx : ℕ) : IterResult :=
  let buffer := st.buffer ++ arrival.toList
  if should_flush buffer st.lastFlush now then
    let sorted := sortBuffer buffer
    let combined := flushBytes buffer
    if combined.length ≥ MIN_BUFFER_SIZE then
      let text := transcribe_audio_data resp mockIdx
      if pyStrip text ≠ "" then
        let entry : TranscriptEntry := ⟨pyInt now, pyStrip text⟩
        ⟨⟨[], now, st.transcript ++ [entry]⟩, true, [entry]⟩
      else
        ⟨⟨[], now, st.transcript⟩, true, []⟩
    else
      ⟨⟨sorted, st.lastFlush, st.transcript⟩, true, []⟩
  else
    ⟨⟨buffer, st.lastFlush, st.transcript⟩, false, []⟩

/-! ### server.py transcript-text handler -/

/-- The transcription-module `rooms` as `handle_transcript_text` sees it,
restricted to the `"transcript"` field it touches. -/
abbrev TransRooms := List (RoomId × List TranscriptEntry)

/-- Payload of a `transcript-text` event per the documented schema
`transcript-text{room, text, ts}`. -/
structure TTData where
  room : Option RoomId
  text : Option String
  ts : Option ℚ

/-- Embedding of `handle_transcript_text` (`server.py` lines 149–171):
extract `room` (default `"default"`), `text = data.get('text', '').strip()`,
`ts = int(data.get('ts', time.time()))`; if `text` is empty, return without
touching anything; otherwise create the room's transcript record if absent,
append the entry, and broadcast one `transcript-update` to the room. Returns
the new transcript state and the list of broadcast entries. -/
def handle_transcript_text (tr : TransRooms) (d : TTData) (nowTime : ℚ) :
    TransRooms × List TranscriptEntry :=
  let room := d.room.getD "default"
  let text := pyStrip (d.text.getD "")
  let ts := pyInt (d.ts.getD nowTime)
  if text = "" then (tr, [])
  else
    let entry : TranscriptEntry := ⟨ts, text⟩
    let tr1 :=
      match lookupRoom tr room with
      | some es => setRoom tr room (es ++ [entry])
      | none => setRoom tr room ([] ++ [entry])
    (tr1, [entry])

/-! ### worker lifecycle (server.py join/leave/disconnect) -/

/-- Signaling events that touch the registry and the worker bookkeeping. -/
inductive SEvent where
  | join (sid : Sid) (room : Option RoomId)
  | leave (sid : Sid) (room : Option RoomId)
  | disconnect (sid : Sid)

/-- Combined server state: the `rooms` registry, the keys of the
`audio_workers` dict (the tracking handles), and the multiset of worker
threads actually running. A started thread runs `while True` with no stop
signal, so nothing ever removes an element from `liveWorkers`. -/
structure SysState where
  reg : Registry
  audioWorkers : List RoomId
  liveWorkers : List RoomId
deriving DecidableEq, Repr

def initSys : SysState := ⟨[], [], []⟩

/-- The rooms that `on_disconnect` empties and deletes (it removes the worker
handle for exactly these). -/
def roomsEmptiedByDisconnect (m : Registry) (sid : Sid) : List RoomId :=
  m.filterMap fun p =>
    if sid ∈ p.2 ∧ pyDiscard p.2 sid = [] then some p.1 else none

/-- One signaling event, with its effect on registry, worker handles and live
worker threads (`server.py` lines 121–147, 213–232, 234–251, with the
transcription module loaded). A join starts a new thread iff the room has no
tracked handle; emptied-room cleanup deletes only the handle, never a
thread. -/
def stepEvent (s : SysState) : SEvent → SysState
  | .join sid roomField =>
      let room := roomField.getD "default"
      let reg' := (handle_join s.reg roomField sid).1
      if room ∈ s.audioWorkers then ⟨reg', s.audioWorkers, s.liveWorkers⟩
      else ⟨reg', s.audioWorkers ++ [room], s.liveWorkers ++ [room]⟩
  | .leave sid roomField =>
      let res := handle_leave s.reg roomField sid
      if res.2 then
        ⟨res.1, s.audioWorkers.filter (fun r => r ≠ roomField.getD ""),
          s.liveWorkers⟩
      else ⟨res.1, s.audioWorkers, s.liveWorkers⟩
  | .disconnect sid =>
      let emptied := roomsEmptiedByDisconnect s.reg sid
      ⟨on_disconnect s.reg sid,
        s.audioWorkers.filter (fun r => r ∉ emptied), s.liveWorkers⟩

/-- Replay a list of events from the initial (empty) server state. -/
def runEvents (es : List SEvent) : SysState :=
  es.foldl stepEvent initSys

end WebRTCDemo

namespace WebRTCDemo

/-- C6 counterexample: on input `{bandwidth: 0}` the code reads bandwidth 0 as
falsy and substitutes the default 1000 (`stats.get("bandwidth", 1000) or
1000`), yielding `"normal"`, whereas the claim's tier formula (`bandwidth <
100` with only missing/null fields defaulted) demands `"captions-only"`. -/
theorem C6_counterexample :
    evaluate_network ⟨none, none, some 0⟩ = "normal" ∧
      evaluateNetworkClaim ⟨none, none, some 0⟩ = "captions-only" := by
  constructor <;>
    norm_num [evaluate_network, evaluateNetworkClaim, getOrDefault,
      criticalThresholds, poorThresholds, degradedThresholds]

/-- C6 amended: for every stats input the code returns exactly the tier given
by worst-first evaluation of the claim's thresholds, with missing, null, or
zero (falsy) fields defaulting to rtt=0, loss=0, bandwidth=1000; the output is
always one of the four tiers, and the empty input maps to `"normal"`. -/
theorem C6_amended :
    (∀ stats : NetStats, evaluate_network stats = evaluateNetworkAmended stats) ∧
    (∀ stats : NetStats,
      evaluate_network stats = "captions-only" ∨
      evaluate_network stats = "audio-only" ∨
      evaluate_network stats = "degrade-video" ∨
      evaluate_network stats = "normal") ∧
    evaluate_network ⟨none, none, none⟩ = "normal" := by
  refine ⟨fun stats => rfl, fun stats => ?_,
    by norm_num [evaluate_network, getOrDefault, criticalThresholds,
      poorThresholds, degradedThresholds]⟩
  unfold evaluate_network
  dsimp only
  split_ifs <;> simp

/-! ### Association-list dict lemmas -/

theorem lookupRoom_setRoom_self {α : Type} (m : List (RoomId × α)) (r : RoomId)
    (v : α) : lookupRoom (setRoom m r v) r = some v := by
  induction m with
  | nil => simp [setRoom, lookupRoom]
  | cons p rest ih =>
      obtain ⟨r', s'⟩ := p
      by_cases h : r' = r
      · subst h; simp [setRoom, lookupRoom]
      · simp [setRoom, lookupRoom, h, ih]

theorem lookupRoom_eq_none_iff {α : Type} (m : List (RoomId × α)) (r : RoomId) :
    lookupRoom m r = none ↔ r ∉ roomKeys m := by
  induction m with
  | nil => simp [lookupRoom, roomKeys]
  | cons p rest ih =>
      obtain ⟨r', s'⟩ := p
      by_cases h : r' = r
      · subst h; simp [lookupRoom, roomKeys]
      · simp [lookupRoom, roomKeys, h, ih, Ne.symm h]

theorem mem_roomKeys_of_lookup_some {α : Type} {m : List (RoomId × α)}
    {r : RoomId} {v : α} (h : lookupRoom m r = some v) : r ∈ roomKeys m := by
  by_contra hc
  rw [← lookupRoom_eq_none_iff] at hc
  rw [h] at hc
  exact Option.noConfusion hc

theorem roomKeys_setRoom_of_lookup_none {α : Type} (m : List (RoomId × α))
    (r : RoomId) (v : α) (h : lookupRoom m r = none) :
    roomKeys (setRoom m r v) = roomKeys m ++ [r] := by
  induction m with
  | nil => simp [setRoom, roomKeys]
  | cons p rest ih =>
      obtain ⟨r', s'⟩ := p
      by_cases hr : r' = r
      · subst hr; simp [lookupRoom] at h
      · simp only [lookupRoom, if_neg hr] at h
        simp only [setRoom, if_neg hr, roomKeys, List.map_cons,
          List.cons_append, List.cons.injEq, true_and]
        simpa [roomKeys] using ih h

theorem roomKeys_setRoom_of_mem {α : Type} (m : List (RoomId × α)) (r : RoomId)
    (v : α) (h : r ∈ roomKeys m) : roomKeys (setRoom m r v) = roomKeys m := by
  induction m with
  | nil => simp [roomKeys] at h
  | cons p rest ih =>
      obtain ⟨r', s'⟩ := p
      by_cases hr : r' = r
      · subst hr; simp [setRoom, roomKeys]
      · simp only [roomKeys, List.map_cons] at h
        rcases List.mem_cons.mp h with h | h
        · exact absurd h.symm hr
        · simp only [setRoom, if_neg hr, roomKeys, List.map_cons,
            List.cons.injEq, true_and]
          simpa [roomKeys] using ih h

theorem lookupRoom_eraseRoom_self {α : Type} (m : List (RoomId × α))
    (r : RoomId) (h : (roomKeys m).Nodup) :
    lookupRoom (eraseRoom m r) r = none := by
  induction m with
  | nil => simp [eraseRoom, lookupRoom]
  | cons p rest ih =>
      obtain ⟨r', s'⟩ := p
      simp only [roomKeys, List.map_cons, List.nodup_cons] at h
      by_cases hr : r' = r
      · subst hr
        rw [eraseRoom, if_pos rfl, lookupRoom_eq_none_iff]
        exact h.1
      · rw [eraseRoom, if_neg hr, lookupRoom, if_neg hr]
        exact ih h.2

theorem pyAdd_ne_nil (s : List Sid) (x : Sid) : pyAdd s x ≠ [] := by
  unfold pyAdd
  split
  · rename_i hmem
    intro h
    subst h
    simp at hmem
  · simp

/-! ### C3: existing-peers snapshot -/

/-- C3 counterexample: when the joiner is already a member of the room (a
re-join without an intervening leave), the snapshot `existing =
list(rooms[room])` is taken before the `add` but from a set that already
contains the joiner, so the existing-peers list returned to the joiner does
contain the joiner's own connection id. -/
theorem C3_counterexample :
    "A" ∈ (handle_join [("r", ["A"])] (some "r") "A").2 := by decide

/-- C3 amended: the existing-peers list returned to a joiner never contains
the joiner's own connection id PROVIDED the joiner is not already a member of
the room; on a re-join the snapshot includes the joiner. -/
theorem C3_amended (m : Registry) (roomField : Option RoomId) (sid : Sid)
    (h : sid ∉ (lookupRoom m (roomField.getD "default")).getD []) :
    sid ∉ (handle_join m roomField sid).2 := by
  simp only [handle_join, ddGet]
  cases hl : lookupRoom m (roomField.getD "default") with
  | none => simp
  | some s => rw [hl] at h; simpa using h

/-- C3 witness: a first-time joiner of a fresh room gets an existing-peers
list without itself. -/
theorem C3_witness : ("A" : Sid) ∉ (handle_join [] (some "r") "A").2 :=
  C3_amended [] (some "r") "A" (by decide)

/-! ### C5: registry room-key invariant -/

theorem lookup_on_disconnect_nil {m : Registry} {sid : Sid} {room : RoomId}
    (hnd : (roomKeys m).Nodup)
    (h : lookupRoom (on_disconnect m sid) room = some []) :
    lookupRoom m room = some [] := by
  induction m with
  | nil => simp [on_disconnect, lookupRoom] at h
  | cons p rest ih =>
      obtain ⟨r', s'⟩ := p
      simp only [roomKeys, List.map_cons, List.nodup_cons] at hnd
      have hsub : ∀ x ∈ roomKeys (on_disconnect rest sid), x ∈ roomKeys rest := by
        intro x hx
        simp only [roomKeys, on_disconnect, List.mem_map] at hx ⊢
        obtain ⟨q, hq, hqx⟩ := hx
        rcases List.mem_filterMap.mp hq with ⟨q0, hq0, hq0e⟩
        refine ⟨q0, hq0, ?_⟩
        by_cases hq0m : sid ∈ q0.2
        · simp only [if_pos hq0m] at hq0e
          by_cases hq0d : pyDiscard q0.2 sid = []
          · simp [hq0d] at hq0e
          · simp only [hq0d, if_neg hq0d] at hq0e
            cases hq0e; simpa using hqx
        · simp only [if_neg hq0m] at hq0e
          cases hq0e; exact hqx
      by_cases hs : sid ∈ s'
      · by_cases hd : pyDiscard s' sid = []
        · simp only [on_disconnect, List.filterMap_cons, if_pos hs, hd,
            if_pos rfl] at h
          by_cases hr : r' = room
          · subst hr
            have : r' ∈ roomKeys rest :=
              hsub _ (mem_roomKeys_of_lookup_some (v := []) (by
                simpa [on_disconnect] using h))
            exact absurd this hnd.1
          · rw [lookupRoom, if_neg hr]
            exact ih hnd.2 (by simpa [on_disconnect] using h)
        · simp only [on_disconnect, List.filterMap_cons, if_pos hs,
            if_neg hd] at h
          by_cases hr : r' = room
          · subst hr
            rw [lookupRoom, if_pos rfl] at h ⊢
            exact absurd (by injection h) hd
          · rw [lookupRoom, if_neg hr] at h ⊢
            exact ih hnd.2 (by simpa [on_disconnect] using h)
      · simp only [on_disconnect, List.filterMap_cons, if_neg hs] at h
        by_cases hr : r' = room
        · subst hr
          rw [lookupRoom, if_pos rfl] at h ⊢
          exact h
        · rw [lookupRoom, if_neg hr] at h ⊢
          exact ih hnd.2 (by simpa [on_disconnect] using h)

/-- C5 counterexample: starting from the empty registry, a `leave` naming room
"r" from a sender who is in no room inserts the key "r" with an empty
participant set (the defaultdict access `rooms[room]` in `if room and sid in
rooms[room]` creates the entry), so the set of room keys changes from `[]` to
`["r"]` and an empty room now exists in the registry — the claim demanded the
key set be unchanged and that present keys have non-empty sets. -/
theorem C5_counterexample :
    (handle_leave [] (some "r") "S").1 = [("r", [])] ∧
      roomKeys (handle_leave [] (some "r") "S").1 ≠ roomKeys ([] : Registry) := by
  constructor <;> decide

/-- C5 amended: the room-key invariant holds up to the defaultdict side
effect of `handle_leave`. Precisely: (1) a leave naming a (truthy) room absent
from the registry inserts that key with an empty set, growing the key list by
that room; (2) a leave on a present room by a non-member changes nothing;
(3) a join always leaves the joined room with a non-empty set; (4) a leave by
a member never leaves an empty room behind (the emptied key is deleted);
(5) a disconnect never creates a new empty room. -/
theorem C5_amended (m : Registry) (room : RoomId) (sid : Sid) :
    (room ≠ "" → lookupRoom m room = none →
      (handle_leave m (some room) sid).1 = setRoom m room [] ∧
      roomKeys (handle_leave m (some room) sid).1 = roomKeys m ++ [room]) ∧
    (∀ s, lookupRoom m room = some s → sid ∉ s →
      handle_leave m (some room) sid = (m, false)) ∧
    (∀ roomField : Option RoomId,
      lookupRoom (handle_join m roomField sid).1 (roomField.getD "default") ≠
        some []) ∧
    ((roomKeys m).Nodup → ∀ s, lookupRoom m room = some s → sid ∈ s →
      lookupRoom (handle_leave m (some room) sid).1 room ≠ some []) ∧
    ((roomKeys m).Nodup → lookupRoom (on_disconnect m sid) room = some [] →
      lookupRoom m room = some []) := by
  refine ⟨?_, ?_, ?_, ?_, fun hnd h => lookup_on_disconnect_nil hnd h⟩
  · intro hne hnone
    simp only [handle_leave, if_neg hne, ddGet, hnone]
    constructor
    · simp
    · simpa using roomKeys_setRoom_of_lookup_none m room [] hnone
  · intro s hs hmem
    by_cases hne : room = ""
    · simp [handle_leave, hne]
    · simp [handle_leave, hne, ddGet, hs, hmem]
  · intro roomField
    simp only [handle_join, ddGet]
    cases hl : lookupRoom m (roomField.getD "default") with
    | none =>
        simp only [lookupRoom_setRoom_self]
        intro h
        exact pyAdd_ne_nil _ _ (by injection h)
    | some s =>
        simp only [lookupRoom_setRoom_self]
        intro h
        exact pyAdd_ne_nil _ _ (by injection h)
  · intro hnd s hs hmem
    by_cases hne : room = ""
    · subst hne
      have heq : handle_leave m (some "") sid = (m, false) := by
        simp [handle_leave]
      rw [heq]
      show lookupRoom m "" ≠ some []
      rw [hs]
      intro h
      have : s = [] := by injection h
      subst this
      simp at hmem
    · have h1 : handle_leave m (some room) sid =
          if pyDiscard s sid = [] then
            (eraseRoom (setRoom m room (pyDiscard s sid)) room, true)
          else (setRoom m room (pyDiscard s sid), false) := by
        simp [handle_leave, hne, ddGet, hs, hmem]
      rw [h1]
      by_cases hd : pyDiscard s sid = []
      · rw [if_pos hd]
        show lookupRoom (eraseRoom (setRoom m room (pyDiscard s sid)) room)
          room ≠ some []
        rw [hd]
        have hkeys : roomKeys (setRoom m room ([] : List Sid)) = roomKeys m :=
          roomKeys_setRoom_of_mem m room [] (mem_roomKeys_of_lookup_some hs)
        rw [lookupRoom_eraseRoom_self _ _ (hkeys ▸ hnd)]
        simp
      · rw [if_neg hd]
        show lookupRoom (setRoom m room (pyDiscard s sid)) room ≠ some []
        rw [lookupRoom_setRoom_self]
        intro h
        exact hd (by injection h)

/-- C5 witness: a leave by a non-member of a present room leaves the registry
untouched. -/
theorem C5_witness :
    handle_leave [("r", ["A"])] (some "r") "B" = ([("r", ["A"])], false) :=
  (C5_amended [("r", ["A"])] "r" "B").2.1 ["A"] (by decide) (by decide)

/-! ### C7: directed signaling relay -/

/-- C7 counterexample: an `ice-candidate` event that carries a target field
`to = "X"` but whose `candidate` field is absent emits nothing at all
(`if target and candidate`), whereas the claim states that every such event
carrying a target field has its payload and sender id emitted to the target. -/
theorem C7_counterexample :
    handle_ice (some "X") none "S" = [] ∧ truthyStr (some "X") = true := by
  constructor <;> decide

/-- C7 amended: for `offer` and `answer`, a truthy target field yields exactly
one emit, addressed to the target connection and carrying the payload and the
sender id, and a falsy or absent target yields no emit and no error; for
`ice-candidate` the single directed emit additionally requires a truthy
`candidate` field, with no emit otherwise. Every emit of the three handlers is
addressed to the target (never to the sender's room, which the handlers do not
even receive) and carries the sender id. -/
theorem C7_amended (target payload : Option String) (sid : Sid) :
    (truthyStr target = true →
      handle_offer target payload sid =
        [⟨"offer", payload, sid, target.getD ""⟩] ∧
      handle_answer target payload sid =
        [⟨"answer", payload, sid, target.getD ""⟩]) ∧
    (truthyStr target = false →
      handle_offer target payload sid = [] ∧
      handle_answer target payload sid = []) ∧
    (truthyStr target = true → truthyStr payload = true →
      handle_ice target payload sid =
        [⟨"ice-candidate", payload, sid, target.getD ""⟩]) ∧
    ((truthyStr target && truthyStr payload) = false →
      handle_ice target payload sid = []) ∧
    (∀ e ∈ handle_offer target payload sid ++ handle_answer target payload sid
        ++ handle_ice target payload sid,
      e.dest = target.getD "" ∧ e.sender = sid) := by
  refine ⟨fun h => ?_, fun h => ?_, fun h h' => ?_, fun h => ?_, fun e he => ?_⟩
  · simp [handle_offer, handle_answer, h]
  · simp [handle_offer, handle_answer, h]
  · simp [handle_ice, h, h']
  · simp [handle_ice, h]
  · simp only [handle_offer, handle_answer, handle_ice] at he
    by_cases h1 : truthyStr target = true
    · by_cases h2 : truthyStr payload = true
      · simp only [h1, h2, if_pos, Bool.and_self, List.mem_append,
          List.mem_singleton, if_true] at he
        rcases he with (he | he) | he <;> subst he <;> exact ⟨rfl, rfl⟩
      · simp only [h1, Bool.not_eq_true] at h2
        simp only [h1, h2, if_true, Bool.and_false, Bool.false_eq_true,
          if_false, List.append_nil, List.mem_append, List.mem_singleton] at he
        rcases he with he | he <;> subst he <;> exact ⟨rfl, rfl⟩
    · simp only [Bool.not_eq_true] at h1
      simp [h1] at he

/-- C7 witness: an offer with a present target is relayed as one directed
emit. -/
theorem C7_witness :
    handle_offer (some "X") (some "sdp-blob") "S" =
      [⟨"offer", some "sdp-blob", "S", "X"⟩] :=
  ((C7_amended (some "X") (some "sdp-blob") "S").1 (by decide)).1

/-! ### C4: worker lifecycle -/

/-- C4 counterexample: replaying join(A, r), leave(A, r), join(B, r) from the
empty server: the leave empties the room and deletes the `audio_workers`
tracking handle but cannot stop the `while True` thread, so the second join
starts a second thread and two live workers for room "r" coexist — the claim
demanded at most one at any time, including after empty-and-re-join. -/
theorem C4_counterexample :
    (runEvents [SEvent.join "A" (some "r"), SEvent.leave "A" (some "r"),
      SEvent.join "B" (some "r")]).liveWorkers.count "r" = 2 ∧
    ¬ (runEvents [SEvent.join "A" (some "r"), SEvent.leave "A" (some "r"),
      SEvent.join "B" (some "r")]).liveWorkers.count "r" ≤ 1 := by
  constructor <;> decide

/-- C4 amended: at most one TRACKED worker handle exists per room — a join
for a room whose handle is in `audio_workers` starts no thread and changes no
worker state, and every event preserves duplicate-freeness of the handle
list — but room teardown deletes only the handle while the thread runs on, so
after an empty-and-re-join two live threads for the room can coexist (the
counterexample). -/
theorem C4_amended (s : SysState) (sid : Sid) (roomField : Option RoomId) :
    (roomField.getD "default" ∈ s.audioWorkers →
      stepEvent s (SEvent.join sid roomField) =
        ⟨(handle_join s.reg roomField sid).1, s.audioWorkers, s.liveWorkers⟩) ∧
    (∀ e : SEvent, s.audioWorkers.Nodup → (stepEvent s e).audioWorkers.Nodup) := by
  constructor
  · intro h
    simp [stepEvent, h]
  · intro e hnd
    cases e with
    | join sid' rf =>
        by_cases h : rf.getD "default" ∈ s.audioWorkers
        · simpa [stepEvent, h] using hnd
        · simp only [stepEvent, if_neg h]
          simp [List.nodup_append, hnd, List.disjoint_left]
          exact h
    | leave sid' rf =>
        simp only [stepEvent]
        by_cases hb : (handle_leave s.reg rf sid').2
        · simp only [hb, if_true]
          exact hnd.filter _
        · simp only [hb, Bool.false_eq_true, if_false]
          exact hnd
    | disconnect sid' =>
        simp only [stepEvent]
        exact hnd.filter _

/-- C4 witness: with the handle for room "r" tracked, a further join for "r"
changes neither the handle list nor the live thread multiset. -/
theorem C4_witness :
    stepEvent ⟨[("r", ["A"])], ["r"], ["r"]⟩ (SEvent.join "B" (some "r")) =
      ⟨(handle_join [("r", ["A"])] (some "r") "B").1, ["r"], ["r"]⟩ :=
  (C4_amended ⟨[("r", ["A"])], ["r"], ["r"]⟩ "B" (some "r")).1 (by decide)

/-! ### C10: transcript-text blank guard -/

/-- C10: a `transcript-text` event whose text field is missing, empty, or
whitespace-only is a no-op: nothing is appended to the room's transcript, no
`transcript-update` is broadcast, and the handler returns normally. -/
theorem C10_blank_no_op (tr : TransRooms) (d : TTData) (nowTime : ℚ)
    (h : pyStrip (d.text.getD "") = "") :
    handle_transcript_text tr d nowTime = (tr, []) := by
  simp [handle_transcript_text, h]

/-- C10 witness: a whitespace-only text field leaves the transcript state
untouched and broadcasts nothing. -/
theorem C10_witness :
    handle_transcript_text [] ⟨some "r", some "   ", none⟩ 7 = ([], []) :=
  C10_blank_no_op [] ⟨some "r", some "   ", none⟩ 7 (by decide)

/-! ### C1, C2, C8, C9: the audio worker -/

theorem pyStrip_generate_mock (i : ℕ) :
    pyStrip (generate_mock_transcription i) = generate_mock_transcription i ∧
    generate_mock_transcription i ≠ "" := by
  unfold generate_mock_transcription
  have h : i % 5 < 5 := Nat.mod_lt _ (by norm_num)
  set k := i % 5 with hk
  interval_cases k <;> exact ⟨by decide, by decide⟩

/-- C1 counterexample: a full-size flush whose Gemini call raises does NOT
degrade to no output — `transcribe_audio_data` falls back to
`generate_mock_transcription()`, a non-empty mock phrase, so a TranscriptEntry
with that mock text is appended and a transcript-update is emitted, where the
claim demanded no entry and no event on transcription failure. -/
theorem C1_counterexample :
    ((workerIteration ⟨[], 0, []⟩ (some ⟨1, 0, List.replicate 2048 0⟩) 10
      (Except.error ()) 0).emitted.map TranscriptEntry.text) =
      ["Hello everyone, how are you doing today?"] ∧
    ((workerIteration ⟨[], 0, []⟩ (some ⟨1, 0, List.replicate 2048 0⟩) 10
      (Except.error ()) 0).state.transcript.map TranscriptEntry.text) =
      ["Hello everyone, how are you doing today?"] := by
  have hsf : should_flush
      ([] ++ (some (Frag.mk 1 0 (List.replicate 2048 0))).toList) 0 10 :=
    ⟨List.cons_ne_nil _ _, Or.inl (by norm_num [FLUSH_SECONDS])⟩
  have hlen : (flushBytes
      ([] ++ (some (Frag.mk 1 0 (List.replicate 2048 0))).toList)).length ≥
      MIN_BUFFER_SIZE := by
    simp only [flushBytes, sortBuffer, Option.toList, List.nil_append,
      List.insertionSort, List.orderedInsert, List.flatMap_cons,
      List.flatMap_nil, List.append_nil, List.length_replicate,
      MIN_BUFFER_SIZE]
    norm_num
  have hne : pyStrip (transcribe_audio_data (Except.error ()) 0) ≠ "" := by
    decide
  have htext : pyStrip (transcribe_audio_data (Except.error ()) 0) =
      "Hello everyone, how are you doing today?" := by decide
  constructor <;>
    (unfold workerIteration; rw [if_pos hsf, if_pos hlen, if_pos hne];
      simp [htext])

/-- C1 amended: an empty (or whitespace-only) transcription result appends no
TranscriptEntry and emits nothing, and nothing is raised out of the flush
cycle; but when the underlying transcription call raises, the except branch
returns a (non-empty) mock phrase and a full-size flush appends it as a real
TranscriptEntry. -/
theorem C1_amended (st : WorkerState) (arrival : Option Frag) (now : ℚ)
    (mockIdx : ℕ) :
    (∀ t : String, pyStrip t = "" →
      (workerIteration st arrival now (Except.ok t) mockIdx).emitted = [] ∧
      (workerIteration st arrival now (Except.ok t) mockIdx).state.transcript =
        st.transcript) ∧
    (should_flush (st.buffer ++ arrival.toList) st.lastFlush now →
      MIN_BUFFER_SIZE ≤ (flushBytes (st.buffer ++ arrival.toList)).length →
      (workerIteration st arrival now (Except.error ()) mockIdx).emitted =
        [⟨pyInt now, generate_mock_transcription mockIdx⟩]) := by
  constructor
  · intro t ht
    unfold workerIteration
    by_cases hsf : should_flush (st.buffer ++ arrival.toList) st.lastFlush now
    · rw [if_pos hsf]
      by_cases hlen :
          (flushBytes (st.buffer ++ arrival.toList)).length ≥ MIN_BUFFER_SIZE
      · rw [if_pos hlen]
        have hblank : ¬ (pyStrip (transcribe_audio_data (Except.ok t) mockIdx)
            ≠ "") := by
          simp [transcribe_audio_data, ht]
        rw [if_neg hblank]
        exact ⟨rfl, rfl⟩
      · rw [if_neg hlen]
        exact ⟨rfl, rfl⟩
    · rw [if_neg hsf]
      exact ⟨rfl, rfl⟩
  · intro hsf hlen
    unfold workerIteration
    rw [if_pos hsf, if_pos hlen]
    have hne : pyStrip (transcribe_audio_data (Except.error ()) mockIdx) ≠
        "" := by
      show pyStrip (generate_mock_transcription mockIdx) ≠ ""
      rw [(pyStrip_generate_mock mockIdx).1]
      exact (pyStrip_generate_mock mockIdx).2
    rw [if_pos hne]
    show ([⟨pyInt now, pyStrip (generate_mock_transcription mockIdx)⟩] :
        List TranscriptEntry) =
      [⟨pyInt now, generate_mock_transcription mockIdx⟩]
    rw [(pyStrip_generate_mock mockIdx).1]

/-- C1 witness: a whitespace-only transcription result produces no entry and
no emit on a full-size flush. -/
theorem C1_witness :
    (workerIteration ⟨[], 0, []⟩ (some ⟨1, 0, [1]⟩) 10 (Except.ok " ")
      0).emitted = [] ∧
    (workerIteration ⟨[], 0, []⟩ (some ⟨1, 0, [1]⟩) 10 (Except.ok " ")
      0).state.transcript = [] :=
  (C1_amended ⟨[], 0, []⟩ (some ⟨1, 0, [1]⟩) 10 0).1 " " (by decide)

/-- C2 counterexample: a flush of 3 buffered bytes (below the 2048-byte gate)
does not discard the buffered fragments — the code skips the
`buffer = []` / `last_flush = now` lines together with the transcription, so
the fragment is retained in the buffer for the next cycle, where the claim
says the bytes are discarded and the buffer cleared. -/
theorem C2_counterexample :
    (workerIteration ⟨[], 0, []⟩ (some ⟨1, 0, [1, 2, 3]⟩) 10 (Except.ok "hi")
      0).state.buffer = [⟨1, 0, [1, 2, 3]⟩] ∧
    (workerIteration ⟨[], 0, []⟩ (some ⟨1, 0, [1, 2, 3]⟩) 10 (Except.ok "hi")
      0).didFlush = true ∧
    (workerIteration ⟨[], 0, []⟩ (some ⟨1, 0, [1, 2, 3]⟩) 10 (Except.ok "hi")
      0).state.buffer ≠ [] := by
  have hsf : should_flush ([] ++ (some (Frag.mk 1 0 [1, 2, 3])).toList) 0 10 :=
    ⟨List.cons_ne_nil _ _, Or.inl (by norm_num [FLUSH_SECONDS])⟩
  have hlen : ¬ ((flushBytes
      ([] ++ (some (Frag.mk 1 0 [1, 2, 3])).toList)).length ≥
      MIN_BUFFER_SIZE) := by decide
  refine ⟨?_, ?_, ?_⟩ <;>
    (unfold workerIteration; rw [if_pos hsf, if_neg hlen]) <;>
    simp [sortBuffer, List.insertionSort, List.orderedInsert]

/-- C2 amended: when the flush condition holds but the concatenated length is
below `MIN_BUFFER_SIZE`, no transcript entry is produced and nothing is
emitted for that window, but the fragments are NOT discarded: the buffer is
retained (in sorted order, as `buffer.sort` mutates in place) and `last_flush`
is not advanced, so the same bytes are retried at the next flush check. -/
theorem C2_amended (st : WorkerState) (arrival : Option Frag) (now : ℚ)
    (resp : Except Unit String) (mockIdx : ℕ)
    (hsf : should_flush (st.buffer ++ arrival.toList) st.lastFlush now)
    (hlen : (flushBytes (st.buffer ++ arrival.toList)).length <
      MIN_BUFFER_SIZE) :
    (workerIteration st arrival now resp mockIdx).state.buffer =
      sortBuffer (st.buffer ++ arrival.toList) ∧
    (workerIteration st arrival now resp mockIdx).state.lastFlush =
      st.lastFlush ∧
    (workerIteration st arrival now resp mockIdx).emitted = [] ∧
    (workerIteration st arrival now resp mockIdx).state.transcript =
      st.transcript := by
  unfold workerIteration
  rw [if_pos hsf, if_neg (not_le.mpr hlen)]
  exact ⟨rfl, rfl, rfl, rfl⟩

/-- C2 witness: one small fragment after an elapsed interval is retained, not
discarded. -/
theorem C2_witness :
    (workerIteration ⟨[], 0, []⟩ (some ⟨2, 1, [9]⟩) 6 (Except.ok "x")
      0).state.buffer = sortBuffer ([] ++ (some (Frag.mk 2 1 [9])).toList) ∧
    (workerIteration ⟨[], 0, []⟩ (some ⟨2, 1, [9]⟩) 6 (Except.ok "x")
      0).state.lastFlush = 0 ∧
    (workerIteration ⟨[], 0, []⟩ (some ⟨2, 1, [9]⟩) 6 (Except.ok "x")
      0).emitted = [] ∧
    (workerIteration ⟨[], 0, []⟩ (some ⟨2, 1, [9]⟩) 6 (Except.ok "x")
      0).state.transcript = [] :=
  C2_amended ⟨[], 0, []⟩ (some ⟨2, 1, [9]⟩) 6 (Except.ok "x") 0
    ⟨List.cons_ne_nil _ _, Or.inl (by norm_num [FLUSH_SECONDS])⟩ (by decide)

/-- C8: in every iteration of the worker loop (fragment arrival or queue
timeout), the flush branch is entered exactly when the post-arrival buffer is
non-empty AND (the flush interval has elapsed since the last flush OR the
buffer holds at least 5 fragments); in particular a single buffered fragment
triggers a flush once the interval has elapsed, and 5 buffered fragments
trigger a flush with no condition on elapsed time. -/
theorem C8_flush_trigger (st : WorkerState) (arrival : Option Frag) (now : ℚ)
    (resp : Except Unit String) (mockIdx : ℕ) :
    ((workerIteration st arrival now resp mockIdx).didFlush = true ↔
      st.buffer ++ arrival.toList ≠ [] ∧
        (now - st.lastFlush ≥ FLUSH_SECONDS ∨
          (st.buffer ++ arrival.toList).length ≥ 5)) ∧
    (st.buffer ++ arrival.toList ≠ [] → now - st.lastFlush ≥ FLUSH_SECONDS →
      (workerIteration st arrival now resp mockIdx).didFlush = true) ∧
    (5 ≤ (st.buffer ++ arrival.toList).length →
      (workerIteration st arrival now resp mockIdx).didFlush = true) := by
  have hmain : (workerIteration st arrival now resp mockIdx).didFlush = true ↔
      should_flush (st.buffer ++ arrival.toList) st.lastFlush now := by
    unfold workerIteration
    by_cases hsf : should_flush (st.buffer ++ arrival.toList) st.lastFlush now
    · simp only [if_pos hsf]
      split_ifs <;> simpa using hsf
    · simp [hsf]
  refine ⟨hmain, fun h1 h2 => hmain.mpr ⟨h1, Or.inl h2⟩, fun h5 => ?_⟩
  have hne : st.buffer ++ arrival.toList ≠ [] := by
    intro h
    rw [h] at h5
    simp at h5
  exact hmain.mpr ⟨hne, Or.inr h5⟩

/-- C8 witness: a single fragment arriving after the 5-second interval has
elapsed triggers the flush branch. -/
theorem C8_witness :
    (workerIteration ⟨[], 0, []⟩ (some ⟨1, 0, [7]⟩) 10 (Except.ok "x")
      0).didFlush = true :=
  (C8_flush_trigger ⟨[], 0, []⟩ (some ⟨1, 0, [7]⟩) 10 (Except.ok "x") 0).2.1
    (List.cons_ne_nil _ _) (by norm_num [FLUSH_SECONDS])

theorem keyLe_antisymm_key {a b : Frag} (h1 : keyLe a b) (h2 : keyLe b a) :
    a.ts = b.ts ∧ a.seq = b.seq := by
  unfold keyLe at h1 h2
  rcases h1 with h1 | ⟨h1, h1'⟩ <;> rcases h2 with h2 | ⟨h2, h2'⟩
  · exact absurd h2 (lt_asymm h1)
  · exact absurd (h2 ▸ h1) (lt_irrefl _)
  · exact absurd (h1 ▸ h2) (lt_irrefl _)
  · exact ⟨h1, le_antisymm h1' h2'⟩

theorem sorted_perm_key_nodup_eq : ∀ {l1 l2 : List Frag}, l1.Perm l2 →
    l1.Sorted keyLe → l2.Sorted keyLe →
    (l1.map fun f => (f.ts, f.seq)).Nodup → l1 = l2 := by
  intro l1
  induction l1 with
  | nil =>
      intro l2 hp _ _ _
      exact hp.nil_eq
  | cons a t1 ih =>
      intro l2 hp hs1 hs2 hnd
      cases l2 with
      | nil => exact absurd hp.symm.nil_eq (by simp)
      | cons b t2 =>
          have ha : ∀ x ∈ t1, keyLe a x := (List.sorted_cons.mp hs1).1
          have hb : ∀ x ∈ t2, keyLe b x := (List.sorted_cons.mp hs2).1
          have hab : a = b := by
            by_contra hne
            have hamem : a ∈ b :: t2 := hp.mem_iff.mp (by simp)
            have hbmem : b ∈ a :: t1 := hp.mem_iff.mpr (by simp)
            have h1 : keyLe b a := by
              rcases List.mem_cons.mp hamem with h | h
              · exact absurd h hne
              · exact hb a h
            have h2 : keyLe a b := by
              rcases List.mem_cons.mp hbmem with h | h
              · exact absurd h.symm hne
              · exact ha b h
            have hk := keyLe_antisymm_key h2 h1
            have hbt1 : b ∈ t1 := by
              rcases List.mem_cons.mp hbmem with h | h
              · exact absurd h.symm hne
              · exact h
            simp only [List.map_cons, List.nodup_cons] at hnd
            exact hnd.1 (List.mem_map.mpr ⟨b, hbt1, by
              simp [hk.1, hk.2]⟩)
          subst hab
          have hpt : t1.Perm t2 := hp.cons_inv
          have hteq := ih hpt (List.sorted_cons.mp hs1).2
            (List.sorted_cons.mp hs2).2
            (by simp only [List.map_cons, List.nodup_cons] at hnd; exact hnd.2)
          rw [hteq]

/-- C9 counterexample: two fragments with the SAME (timestamp, sequence) key
but different bytes: the stable in-place sort keeps equal-key fragments in
enqueue order, so the two enqueue orders of the same multiset submit
different byte strings — the bytes submitted are not a function of the
multiset, as the claim asserts. -/
theorem C9_counterexample :
    ([⟨1, 0, [98]⟩, ⟨1, 0, [97]⟩] : List Frag).Perm
      [⟨1, 0, [97]⟩, ⟨1, 0, [98]⟩] ∧
    flushBytes [⟨1, 0, [97]⟩, ⟨1, 0, [98]⟩] = [97, 98] ∧
    flushBytes [⟨1, 0, [98]⟩, ⟨1, 0, [97]⟩] = [98, 97] ∧
    flushBytes [⟨1, 0, [97]⟩, ⟨1, 0, [98]⟩] ≠
      flushBytes [⟨1, 0, [98]⟩, ⟨1, 0, [97]⟩] :=
  ⟨List.Perm.swap _ _ _, by decide, by decide, by decide⟩

/-- C9 amended: on flush the submitted bytes are the concatenation of the
buffered fragments arranged in (timestamp, sequence)-ascending order — the
flush order is a sorted permutation of the buffer, with fragments of equal
key kept in enqueue order (stable sort); whenever the fragments' (timestamp,
sequence) keys are pairwise distinct the submitted bytes are independent of
the enqueue order. -/
theorem C9_amended (buf : List Frag) :
    (sortBuffer buf).Perm buf ∧
    List.Sorted keyLe (sortBuffer buf) ∧
    flushBytes buf = (sortBuffer buf).flatMap Frag.data ∧
    (∀ buf' : List Frag, buf.Perm buf' →
      ((buf.map fun f => (f.ts, f.seq)).Nodup) →
      flushBytes buf = flushBytes buf') := by
  refine ⟨List.perm_insertionSort keyLe buf,
    List.sorted_insertionSort keyLe buf, rfl, ?_⟩
  intro buf' hperm hnd
  have h1 : (sortBuffer buf).Perm (sortBuffer buf') :=
    (List.perm_insertionSort keyLe buf).trans
      (hperm.trans (List.perm_insertionSort keyLe buf').symm)
  have hnd1 : ((sortBuffer buf).map fun f => (f.ts, f.seq)).Nodup := by
    refine (List.Perm.nodup_iff ?_).mpr hnd
    exact (List.perm_insertionSort keyLe buf).map _
  have heq := sorted_perm_key_nodup_eq h1
    (List.sorted_insertionSort keyLe buf)
    (List.sorted_insertionSort keyLe buf') hnd1
  unfold flushBytes
  rw [heq]

/-- C9 witness: with distinct keys, the two enqueue orders of a two-fragment
multiset submit identical bytes. -/
theorem C9_witness :
    flushBytes [⟨1, 0, [5]⟩, ⟨2, 0, [6]⟩] =
      flushBytes [⟨2, 0, [6]⟩, ⟨1, 0, [5]⟩] :=
  (C9_amended [⟨1, 0, [5]⟩, ⟨2, 0, [6]⟩]).2.2.2 [⟨2, 0, [6]⟩, ⟨1, 0, [5]⟩]
    (List.Perm.swap _ _ _) (by decide)

end WebRTCDemo
